import Mathlib

set_option maxHeartbeats 1000000

/-!
Shallow embedding of the `my-interview-practice` repository:

* `src/services/graphql.ts` — `callAnilistStudio`, an async function that
  POSTs a fixed GraphQL query and reduces the outcome to a boolean.
* `src/store/uiReducer.ts` — `UIState`, `UIAction`, `uiReducer`.
* `App.tsx` — the `App` component's two effects:
  - the `disableButtons` effect (toggle notifier with rollback), and
  - the `count` effect (debounced notifier with timer cancellation),
  modelled as explicit state machines driven by input events.
-/

/-! ## `src/services/graphql.ts` -/

/-- Behaviour of the environment for one `callAnilistStudio` invocation:
either `fetch` rejects, or a response arrives (with HTTP `ok` flag) whose
body fails to parse (`res.json()` rejects), or parsing succeeds and we see
the truthiness of `json.errors`, `json.data` and `json.data.Studio`. -/
inductive FetchOutcome where
  | fetchRejects : FetchOutcome
  | jsonRejects (ok : Bool) : FetchOutcome
  | jsonOk (ok : Bool) (errors : Bool) (hasData : Bool) (hasStudio : Bool) : FetchOutcome
deriving DecidableEq

/-- The `try` block of `callAnilistStudio`: `await fetch(...)`; if `!res.ok`
return `false`; `await res.json()`; if `json.errors` return `false`;
return `!!(json.data && json.data.Studio)`.  An `Except.error` models an
exception escaping the `try` block. -/
def anilistTryBlock : FetchOutcome → Except Unit Bool
  | .fetchRejects => .error ()
  | .jsonRejects ok => if !ok then .ok false else .error ()
  | .jsonOk ok errors hasData hasStudio =>
      if !ok then .ok false
      else if errors then .ok false
      else .ok (hasData && hasStudio)

/-- `callAnilistStudio` as a value: the `try/catch` with the `catch` clause
logging the error and returning `false`. -/
def callAnilistStudio (o : FetchOutcome) : Bool :=
  match anilistTryBlock o with
  | .ok b => b
  | .error _ => false

/-- The promise returned by the `async function callAnilistStudio`: it
rejects exactly when the function body throws uncaught.  The whole body is
a `try/catch` whose `catch` returns `false`, so every path resolves. -/
def callAnilistStudioRun (o : FetchOutcome) : Except Unit Bool :=
  match anilistTryBlock o with
  | .ok b => .ok b
  | .error _ => .ok false

/-! ## `src/store/uiReducer.ts` -/

structure UIState where
  disableButtons : Bool
deriving DecidableEq

/-- `UIAction`: `TOGGLE_DISABLE` or `SET_DISABLE` with a boolean payload. -/
inductive UIAction where
  | toggleDisable : UIAction
  | setDisable (payload : Bool) : UIAction
deriving DecidableEq

/-- `uiReducer` from `src/store/uiReducer.ts`.  The TS `default` arm
returning `state` is unreachable because the match is exhaustive. -/
def uiReducer (state : UIState) (action : UIAction) : UIState :=
  match action with
  | .toggleDisable => { state with disableButtons := !state.disableButtons }
  | .setDisable payload => { state with disableButtons := payload }

def initialUIState : UIState := { disableButtons := false }

/-! ## `App.tsx`: the `count` effect (debounced notifier)

The component state relevant to this effect, plus the JS timer table.
A `TimerRec` is one pending `setTimeout`: its id, its due time, and the
`count` captured by the scheduled closure.

One point of JS semantics is load-bearing for the model: inside the
`setTimeout` callback the code does

    let mounted = true; ... ; return () => { mounted = false; };

The returned closure goes to `setTimeout`'s caller, which discards it, so
nothing ever sets this `mounted` local to `false`.  In-flight requests on
the count path therefore carry no liveness flag in the model: their
`mounted` local is `true` for their whole lifetime. -/

structure TimerRec where
  id : Nat
  fireAt : Nat
  capturedCount : Nat
deriving DecidableEq

structure CounterState where
  /-- Whether the component is mounted (React silently drops `setState`
  calls on an unmounted component). -/
  mountedC : Bool
  count : Nat
  prevCountRef : Nat
  /-- `countTimeoutRef.current`; kept (stale) after the timer fires. -/
  countTimeoutRef : Option Nat
  /-- pending (scheduled, not yet fired, not cleared) timers -/
  timers : List TimerRec
  nextId : Nat
  /-- whether the latest effect run registered the outer cleanup
  (the early-return path registers none) -/
  hasCleanup : Bool
  isSaving : Bool
  /-- `uiState.disableButtons`; the count effect never touches it -/
  disableButtons : Bool
  /-- captured counts of in-flight `callAnilistStudio` promises (FIFO) -/
  inflight : List Nat
  /-- log of notification attempts: (fire time, captured count) -/
  attempts : List (Nat × Nat)
  /-- number of `console.warn` calls from the count-path `then` handler -/
  warnC : Nat
  /-- number of `console.error` calls from the count-path `catch` handler -/
  errC : Nat
deriving DecidableEq

/-- `setIsSaving` on the count path: React applies it only while the
component is mounted. -/
def setIsSavingC (b : Bool) (s : CounterState) : CounterState :=
  if s.mountedC then { s with isSaving := b } else s

/-- The outer cleanup of the count effect:
`if (countTimeoutRef.current) { clearTimeout(...); countTimeoutRef.current = null; }` -/
def counterCleanup (s : CounterState) : CounterState :=
  match s.countTimeoutRef with
  | some id =>
      { s with timers := s.timers.filter (fun tr => tr.id ≠ id),
               countTimeoutRef := none }
  | none => s

/-- The body of the count effect, run at time `t` with `s.count` already
holding the new value.  Early-returns when `prevCountRef.current === count`
(initial render, or a change back to the last recorded value); otherwise
clears any timer still referenced and schedules a new 300-unit timer
capturing the current `count`. -/
def counterEffectRun (t : Nat) (s : CounterState) : CounterState :=
  if s.prevCountRef = s.count then
    { s with prevCountRef := s.count, hasCleanup := false }
  else
    let s1 :=
      match s.countTimeoutRef with
      | some id => { s with timers := s.timers.filter (fun tr => tr.id ≠ id) }
      | none => s
    { s1 with countTimeoutRef := some s1.nextId,
              timers := s1.timers ++ [⟨s1.nextId, t + 300, s1.count⟩],
              nextId := s1.nextId + 1,
              hasCleanup := true }

/-- A user-driven counter change at time `t` (via `setCount`).  React
bails out when the new value equals the current one; otherwise it
re-renders, runs the previous effect run's cleanup (when one was
registered), then runs the effect body. -/
def counterChange (t : Nat) (n : Nat) (s : CounterState) : CounterState :=
  if s.mountedC = false then s
  else if n = s.count then s
  else
    let s1 := if s.hasCleanup then counterCleanup s else s
    counterEffectRun t { s1 with count := n }

/-- A pending timer fires: the scheduled closure sets `mounted = true`,
calls `setIsSaving(true)`, and invokes `callAnilistStudio`, recording one
notification attempt and one in-flight promise.  (Its returned
"cleanup" is discarded by `setTimeout`, see the note above.) -/
def fireTimer (tr : TimerRec) (s : CounterState) : CounterState :=
  let s1 := { s with timers := s.timers.filter (fun x => x.id ≠ tr.id),
                     attempts := s.attempts ++ [(tr.fireAt, tr.capturedCount)],
                     inflight := s.inflight ++ [tr.capturedCount] }
  setIsSavingC true s1

/-- Earliest pending timer due at or before time `t`. -/
def earliestDue (timers : List TimerRec) (t : Nat) : Option TimerRec :=
  (timers.filter (fun tr => tr.fireAt ≤ t)).foldl
    (fun acc tr =>
      match acc with
      | none => some tr
      | some b => if tr.fireAt < b.fireAt then some tr else some b)
    none

def fireDueAux (t : Nat) : Nat → CounterState → CounterState
  | 0, s => s
  | fuel + 1, s =>
      match earliestDue s.timers t with
      | none => s
      | some tr => fireDueAux t fuel (fireTimer tr s)

/-- Fire, in order, every pending timer due at or before time `t`. -/
def fireDue (t : Nat) (s : CounterState) : CounterState :=
  fireDueAux t s.timers.length s

/-- The `then`/`catch`/`finally` chain of the count-path call, applied to
the settled promise outcome `o` of a request that captured count `c`.
The `mounted` local checked by the handlers is always `true` (see the
note above), so: on resolved failure only `console.warn` runs; on
rejection only `console.error` runs; `finally` calls `setIsSaving(false)`
and assigns `prevCountRef.current = count` (the captured value). -/
def counterHandlers (o : Except Unit Bool) (c : Nat) (s : CounterState) : CounterState :=
  let s1 :=
    match o with
    | .ok success => if success then s else { s with warnC := s.warnC + 1 }
    | .error _ => { s with errC := s.errC + 1 }
  { setIsSavingC false s1 with prevCountRef := c }

/-- The oldest in-flight count-path promise settles with outcome `o`. -/
def counterSettle (o : Except Unit Bool) (s : CounterState) : CounterState :=
  match s.inflight with
  | [] => s
  | c :: rest => counterHandlers o c { s with inflight := rest }

/-- Unmount: React runs the latest registered cleanup (clearing any
pending timer) and stops applying `setState` calls. -/
def counterUnmount (s : CounterState) : CounterState :=
  if s.mountedC = false then s
  else
    let s1 := if s.hasCleanup then counterCleanup s else s
    { s1 with mountedC := false }

deriving instance DecidableEq for Except

inductive CInput where
  | change (n : Nat) : CInput
  | settle (o : Except Unit Bool) : CInput
  | unmount : CInput
deriving DecidableEq

/-- One step of the count-path machine at time `t`: timers due by `t`
fire first (the event loop runs due callbacks before later events), then
the external event is processed. -/
def counterStep (t : Nat) (i : CInput) (s : CounterState) : CounterState :=
  let s1 := fireDue t s
  match i with
  | .change n => counterChange t n s1
  | .settle o => counterSettle o s1
  | .unmount => counterUnmount s1

def runCounter (s : CounterState) : List (Nat × CInput) → CounterState
  | [] => s
  | (t, i) :: evs => runCounter (counterStep t i s) evs

/-- Run the machine over the events, then let time pass to `tEnd`
(firing any timer due by then). -/
def runCounterTo (s : CounterState) (evs : List (Nat × CInput)) (tEnd : Nat) : CounterState :=
  fireDue tEnd (runCounter s evs)

/-- Mounting the component with initial count `c0` (`App` uses `0`):
the effect's first run sees `prevCountRef.current === count` and
early-returns without scheduling or calling anything. -/
def mountCounter (c0 : Nat) : CounterState :=
  counterEffectRun 0
    { mountedC := true, count := c0, prevCountRef := c0, countTimeoutRef := none,
      timers := [], nextId := 1, hasCleanup := false, isSaving := false,
      disableButtons := false, inflight := [], attempts := [], warnC := 0, errC := 0 }

/-! ## `App.tsx`: the `disableButtons` effect (toggle notifier with rollback)

Each (non-skipped) run of this effect declares a fresh `let mounted = true`
local and registers a cleanup `() => { mounted = false; }` with React, so
the cleanup runs exactly when the run is superseded by a new run or the
component unmounts.  We give each run an id and record in `aliveRun` which
run's `mounted` local is still `true` (at most one can be).

An in-flight promise (`TFlight`) carries its run id (to look up its
`mounted` local at settle time) and the render-captured value of
`uiState.disableButtons` (used by the `finally` handler). -/

structure TFlight where
  run : Nat
  captured : Bool
deriving DecidableEq

structure ToggleState where
  mountedT : Bool
  uiState : UIState
  /-- `prevDisableRef.current` -/
  prevDisableRef : Bool
  isSaving : Bool
  /-- id of the latest effect run that created a `mounted` local -/
  runId : Nat
  /-- which run's `mounted` local is still `true`, if any -/
  aliveRun : Option Nat
  /-- whether the latest effect run registered a cleanup -/
  hasCleanupT : Bool
  /-- in-flight `callAnilistStudio` promises, in creation order -/
  inflight : List TFlight
  /-- number of `callAnilistStudio` invocations from this effect -/
  callsT : Nat
  /-- number of `console.error` calls from the toggle-path `catch` handler -/
  errT : Nat
deriving DecidableEq

/-- `uiDispatch`: React drops dispatches on an unmounted component. -/
def dispatchT (a : UIAction) (s : ToggleState) : ToggleState :=
  if s.mountedT then { s with uiState := uiReducer s.uiState a } else s

/-- `setIsSaving` on the toggle path. -/
def setIsSavingT (b : Bool) (s : ToggleState) : ToggleState :=
  if s.mountedT then { s with isSaving := b } else s

/-- The body of the `disableButtons` effect.  Early-returns when
`prevDisableRef.current === uiState.disableButtons`; otherwise starts a
fresh run: `mounted = true`, `setIsSaving(true)`, one `callAnilistStudio`
invocation, and registers the cleanup. -/
def toggleEffectRun (s : ToggleState) : ToggleState :=
  if s.prevDisableRef = s.uiState.disableButtons then
    { s with prevDisableRef := s.uiState.disableButtons, hasCleanupT := false }
  else
    { s with runId := s.runId + 1,
             aliveRun := some (s.runId + 1),
             hasCleanupT := true,
             isSaving := true,
             inflight := s.inflight ++ [⟨s.runId + 1, s.uiState.disableButtons⟩],
             callsT := s.callsT + 1 }

/-- A render in which the effect's dependency changed: the previous run's
cleanup (if registered) sets that run's `mounted` local to `false`, then
the effect body runs. -/
def toggleDep (s : ToggleState) : ToggleState :=
  toggleEffectRun (if s.hasCleanupT then { s with aliveRun := none } else s)

/-- A user click on the toggle button: `uiDispatch({ type: 'TOGGLE_DISABLE' })`,
which always flips the flag, so the effect re-runs. -/
def userToggle (s : ToggleState) : ToggleState :=
  if s.mountedT then
    toggleDep { s with uiState := uiReducer s.uiState .toggleDisable }
  else s

/-- The `then` handler (`onFulfilled`):
`if (!mounted) return; if (!success) uiDispatch(SET_DISABLE, prevDisableRef.current)`. -/
def toggleOnFulfilled (fl : TFlight) (success : Bool) (s : ToggleState) : ToggleState :=
  if s.aliveRun = some fl.run then
    if success then s else dispatchT (.setDisable s.prevDisableRef) s
  else s

/-- The `catch` handler (`onRejected`): `console.error(...)` and an
unguarded `uiDispatch(SET_DISABLE, prevDisableRef.current)`. -/
def toggleOnRejected (fl : TFlight) (s : ToggleState) : ToggleState :=
  dispatchT (.setDisable s.prevDisableRef) { s with errT := s.errT + 1 }

/-- The `finally` handler: `if (mounted) setIsSaving(false);
prevDisableRef.current = uiState.disableButtons` (the captured value). -/
def toggleOnFinally (fl : TFlight) (s : ToggleState) : ToggleState :=
  let s1 := if s.aliveRun = some fl.run then setIsSavingT false s else s
  { s1 with prevDisableRef := fl.captured }

/-- The `then`/`catch`/`finally` chain applied to the settled outcome. -/
def toggleHandlers (o : Except Unit Bool) (fl : TFlight) (s : ToggleState) : ToggleState :=
  match o with
  | .ok b => toggleOnFinally fl (toggleOnFulfilled fl b s)
  | .error _ => toggleOnFinally fl (toggleOnRejected fl s)

/-- The in-flight promise at index `i` settles with outcome `o` (promises
may settle in any order).  After the handlers run, if they changed
`uiState.disableButtons`, React re-renders and the effect runs again. -/
def toggleSettle (i : Nat) (o : Except Unit Bool) (s : ToggleState) : ToggleState :=
  match s.inflight.get? i with
  | none => s
  | some fl =>
      let d0 := s.uiState.disableButtons
      let s1 := toggleHandlers o fl { s with inflight := s.inflight.eraseIdx i }
      if s1.mountedT && (s1.uiState.disableButtons != d0) then toggleDep s1 else s1

/-- Unmount: the latest registered cleanup runs (`mounted = false`), and
React stops applying state updates. -/
def toggleUnmount (s : ToggleState) : ToggleState :=
  if s.mountedT then
    let s1 := if s.hasCleanupT then { s with aliveRun := none } else s
    { s1 with mountedT := false }
  else s

inductive TInput where
  | toggle : TInput
  | settleAt (i : Nat) (o : Except Unit Bool) : TInput
  | unmount : TInput
deriving DecidableEq

def toggleStep (i : TInput) (s : ToggleState) : ToggleState :=
  match i with
  | .toggle => userToggle s
  | .settleAt i o => toggleSettle i o s
  | .unmount => toggleUnmount s

def runToggle (s : ToggleState) : List TInput → ToggleState
  | [] => s
  | i :: evs => runToggle (toggleStep i s) evs

/-- Mounting with initial flag `d0` (`App` uses `initialUIState`, i.e.
`false`): the effect's first run early-returns. -/
def mountToggle (d0 : Bool) : ToggleState :=
  toggleEffectRun
    { mountedT := true, uiState := { disableButtons := d0 }, prevDisableRef := d0,
      isSaving := false, runId := 0, aliveRun := none, hasCleanupT := false,
      inflight := [], callsT := 0, errT := 0 }

/-! ## Trace predicates for the debounce claims -/

/-- A rapid change chain relative to a previous change at `tPrev` with the
counter currently at value `c`: each change happens no earlier than the
previous one and strictly inside its 300-unit quiet window, and actually
changes the value. -/
def okChain : Nat → Nat → List (Nat × Nat) → Prop
  | _, _, [] => True
  | tPrev, c, (t, v) :: rest => tPrev ≤ t ∧ t < tPrev + 300 ∧ v ≠ c ∧ okChain t v rest

/-- Time of the last change in a chain. -/
def lastT (t1 : Nat) : List (Nat × Nat) → Nat
  | [] => t1
  | (t, _) :: rest => lastT t rest

/-- Value of the last change in a chain. -/
def lastV (v1 : Nat) : List (Nat × Nat) → Nat
  | [] => v1
  | (_, v) :: rest => lastV v rest

/-- Turn a chain of counter changes into machine inputs. -/
def changesToInputs (chain : List (Nat × Nat)) : List (Nat × CInput) :=
  chain.map (fun p => (p.1, CInput.change p.2))

/-- State invariant maintained during a rapid change chain whose last
change happened at `tPrev`: the component is mounted and quiescent
(nothing fired yet), `prevCountRef` still holds the pre-chain value `c0`,
and either the counter is back at `c0` with no pending timer, or exactly
the timer for the current value is pending, due at `tPrev + 300`. -/
def ChainInv (c0 tPrev : Nat) (s : CounterState) : Prop :=
  s.mountedC = true ∧ s.prevCountRef = c0 ∧ s.attempts = [] ∧
    s.inflight = [] ∧ s.isSaving = false ∧
    ((s.count = c0 ∧ s.timers = [] ∧ s.countTimeoutRef = none ∧ s.hasCleanup = false) ∨
      (s.count ≠ c0 ∧ ∃ id, s.timers = [⟨id, tPrev + 300, s.count⟩] ∧
        s.countTimeoutRef = some id ∧ s.hasCleanup = true))

/-- Pending-timer invariant of the count path: at most one timer is
outstanding, and any outstanding timer is the one `countTimeoutRef`
refers to, registered by a run that also registered the cleanup. -/
def TimerInv (s : CounterState) : Prop :=
  s.timers.length ≤ 1 ∧
    ∀ tr ∈ s.timers, s.countTimeoutRef = some tr.id ∧ s.hasCleanup = true

instance (s : CounterState) : Decidable (TimerInv s) := by
  unfold TimerInv
  infer_instance

/-! ## Theorems -/

/-- Claim C5 (confirmed): `callAnilistStudio` reduces its outcome to a
boolean exactly as specified — the promise always resolves, with `true`
exactly when the HTTP response is ok, the parsed JSON has no `errors`
field, and `data` with a `Studio` payload is present; every other
environment behaviour (non-ok response, `errors` field, missing payload,
network or parsing failure) resolves to `false`. -/
theorem anilist_boolean_reduction (o : FetchOutcome) :
    callAnilistStudioRun o =
      Except.ok (decide (o = FetchOutcome.jsonOk true false true true)) := by
  cases o with
  | fetchRejects => rfl
  | jsonRejects ok => cases ok <;> rfl
  | jsonOk ok errors hasData hasStudio =>
      cases ok <;> cases errors <;> cases hasData <;> cases hasStudio <;> rfl

/-- The promise of `callAnilistStudio` resolves to the value computed by
its `try/catch` body. -/
theorem callAnilistStudioRun_eq (o : FetchOutcome) :
    callAnilistStudioRun o = Except.ok (callAnilistStudio o) := by
  unfold callAnilistStudioRun callAnilistStudio
  cases anilistTryBlock o <;> rfl

/-- Claim C9 (confirmed): `callAnilistStudio`'s returned promise always
resolves to a boolean and never rejects, so the toggle effect's `catch`
handler is unreachable for its results: the handler chain applied to any
outcome `callAnilistStudio` can produce is exactly the
`then`-followed-by-`finally` composition, never the `catch` arm. -/
theorem anilist_never_rejects (o : FetchOutcome) (fl : TFlight) (s : ToggleState) :
    (∃ b, callAnilistStudioRun o = Except.ok b) ∧
    toggleHandlers (callAnilistStudioRun o) fl s =
      toggleOnFinally fl (toggleOnFulfilled fl (callAnilistStudio o) s) := by
  refine ⟨⟨callAnilistStudio o, callAnilistStudioRun_eq o⟩, ?_⟩
  rw [callAnilistStudioRun_eq]
  rfl

/-- Claim C10 (confirmed): `uiReducer` is a pure total transition
function for which `TOGGLE_DISABLE` is an involution on `disableButtons`
and `SET_DISABLE` is idempotent with postcondition
`disableButtons = payload`, for every starting state. -/
theorem uiReducer_algebra (s : UIState) (p : Bool) :
    (uiReducer (uiReducer s .toggleDisable) .toggleDisable).disableButtons =
        s.disableButtons ∧
    uiReducer (uiReducer s (.setDisable p)) (.setDisable p) =
        uiReducer s (.setDisable p) ∧
    (uiReducer s (.setDisable p)).disableButtons = p := by
  cases s with
  | mk b => cases b <;> cases p <;> exact ⟨rfl, rfl, rfl⟩

/-- Claim C4 (code bug, demonstrated): counter goes 0→1 at time 0, the
debounce timer fires at 300 and puts a request for value 1 in flight; the
counter then changes to 2 at 310 (tearing the effect down), and the stale
request settles at 320.  Because the count-path "cleanup guard" is
returned from inside the `setTimeout` callback — which discards it — the
`mounted` flag of the in-flight request is never cleared, and the settle
of the superseded attempt still mutates state: it sets `isSaving` to
`false` and overwrites `prevCountRef` with the stale value 1 while the
counter is already 2. -/
theorem counter_stale_settle_mutates_state :
    (runCounter (mountCounter 0) [(0, .change 1), (310, .change 2)]).isSaving = true ∧
    (runCounter (mountCounter 0) [(0, .change 1), (310, .change 2)]).count = 2 ∧
    (runCounter (mountCounter 0) [(0, .change 1), (310, .change 2)]).inflight = [1] ∧
    (counterStep 320 (.settle (.ok false))
        (runCounter (mountCounter 0) [(0, .change 1), (310, .change 2)])).isSaving = false ∧
    (counterStep 320 (.settle (.ok false))
        (runCounter (mountCounter 0) [(0, .change 1), (310, .change 2)])).prevCountRef = 1 := by
  decide

/-- Claim C1 (counterexample): the change sequence 0→1 at time 0, 1→0 at
time 100 stays inside the debounce window, yet zero notification attempts
have fired by time 400 — not the one attempt for the final settled value 0
at time 400 that the claim predicts.  The final change back to the value
recorded in `prevCountRef` hits the effect's early-return guard, which
cancels the pending timer without scheduling a replacement. -/
theorem counter_chain_back_to_start_zero_attempts :
    (runCounterTo (mountCounter 0) (changesToInputs [(0, 1), (100, 0)]) 400).attempts = [] ∧
    (runCounterTo (mountCounter 0) (changesToInputs [(0, 1), (100, 0)]) 400).attempts ≠
      [(400, 0)] := by
  decide

/-- Claim C3 (counterexample): a concrete execution in which a toggle
run is torn down by superseding toggles while its request is in flight,
and the request then rejects: the unguarded `catch` handler dispatches
`SET_DISABLE` with the current `prevDisableRef`, flipping
`disableButtons` from `false` to `true` even though the run's `mounted`
flag was already cleared (`aliveRun ≠ some 2`). -/
theorem toggle_rejected_after_teardown_mutates_state :
    (runToggle (mountToggle false)
        [.toggle, .settleAt 0 (.ok true), .toggle, .toggle, .toggle]).aliveRun ≠ some 2 ∧
    (runToggle (mountToggle false)
        [.toggle, .settleAt 0 (.ok true), .toggle, .toggle, .toggle]).inflight.get? 0 =
      some ⟨2, false⟩ ∧
    (runToggle (mountToggle false)
        [.toggle, .settleAt 0 (.ok true), .toggle, .toggle, .toggle]).uiState.disableButtons =
      false ∧
    (toggleStep (.settleAt 0 (.error ()))
        (runToggle (mountToggle false)
          [.toggle, .settleAt 0 (.ok true), .toggle, .toggle, .toggle])).uiState.disableButtons =
      true := by
  decide

/-- Claim C2 (confirmed): starting from any mounted, quiescent state
(ref in sync, nothing in flight), a user toggle followed by the settling
of its notification attempt leaves `disableButtons` at its post-toggle
value when the attempt succeeds and rolls it back to its pre-toggle value
when the attempt fails. -/
theorem toggle_rollback (s : ToggleState) (b : Bool)
    (hm : s.mountedT = true) (hq : s.prevDisableRef = s.uiState.disableButtons)
    (hi : s.inflight = []) :
    (runToggle s [.toggle, .settleAt 0 (.ok b)]).uiState.disableButtons =
      (if b then !s.uiState.disableButtons else s.uiState.disableButtons) := by
  obtain ⟨m, ⟨d⟩, pr, sav, rid, ar, hc, infl, calls, errt⟩ := s
  simp only at hm hq hi
  subst hm hq hi
  cases pr <;> cases b <;> cases hc <;>
    simp [runToggle, toggleStep, userToggle, toggleDep, toggleEffectRun, toggleSettle,
      toggleHandlers, toggleOnFulfilled, toggleOnFinally, dispatchT, setIsSavingT, uiReducer]

/-- Witness for `toggle_rollback`: toggling from `true` with a failing
check ends with the flag back at `true`. -/
theorem toggle_rollback_witness :
    (mountToggle true).mountedT = true ∧
    (mountToggle true).prevDisableRef = (mountToggle true).uiState.disableButtons ∧
    (mountToggle true).inflight = [] ∧
    (runToggle (mountToggle true) [.toggle, .settleAt 0 (.ok false)]).uiState.disableButtons =
      (if false then !(mountToggle true).uiState.disableButtons
        else (mountToggle true).uiState.disableButtons) :=
  ⟨rfl, rfl, rfl, toggle_rollback (mountToggle true) false rfl rfl rfl⟩

/-- Claim C3 (corrected, amended): when a toggle run is torn down before
its attempt settles (its `mounted` local already cleared), a RESOLVED
result — success or failure — never mutates `disableButtons` or
`isSaving`.  (The claim's further assertion about the rejected path is
false, see `toggle_rejected_after_teardown_mutates_state`; that path is
unreachable for promises produced by `callAnilistStudio`, which never
rejects.) -/
theorem toggle_resolved_after_teardown (s : ToggleState) (i : Nat) (fl : TFlight) (b : Bool)
    (hfl : s.inflight.get? i = some fl) (hdead : s.aliveRun ≠ some fl.run) :
    (toggleSettle i (.ok b) s).uiState.disableButtons = s.uiState.disableButtons ∧
    (toggleSettle i (.ok b) s).isSaving = s.isSaving := by
  unfold toggleSettle
  rw [hfl]
  simp [toggleHandlers, toggleOnFulfilled, toggleOnFinally, hdead, setIsSavingT]

/-- Witness for `toggle_resolved_after_teardown`: after a toggle whose
run is superseded (second toggle returns the flag to its recorded value
and kills the run's `mounted` local), the resolved late result changes
neither `disableButtons` nor `isSaving`. -/
theorem toggle_resolved_after_teardown_witness :
    (runToggle (mountToggle false) [.toggle, .toggle]).inflight.get? 0 = some ⟨1, true⟩ ∧
    (runToggle (mountToggle false) [.toggle, .toggle]).aliveRun ≠ some (1 : Nat) ∧
    ((toggleSettle 0 (.ok false)
        (runToggle (mountToggle false) [.toggle, .toggle])).uiState.disableButtons =
      (runToggle (mountToggle false) [.toggle, .toggle]).uiState.disableButtons ∧
    (toggleSettle 0 (.ok false)
        (runToggle (mountToggle false) [.toggle, .toggle])).isSaving =
      (runToggle (mountToggle false) [.toggle, .toggle]).isSaving) :=
  ⟨by decide, by decide,
    toggle_resolved_after_teardown (runToggle (mountToggle false) [.toggle, .toggle])
      0 ⟨1, true⟩ false (by decide) (by decide)⟩

/-- Claim C7 (confirmed): on an effect run in which the previous-value
ref equals the watched value — in particular on the initial mount — the
effect body only clears its cleanup slot: no timer is scheduled, no
attempt is recorded, no call is made, and the freshly mounted component
has no timers, attempts, in-flight requests or calls. -/
theorem initial_mount_skip (t c0 : Nat) (d0 : Bool) (s : CounterState) (s' : ToggleState) :
    (s.prevCountRef = s.count → counterEffectRun t s = { s with hasCleanup := false }) ∧
    (s'.prevDisableRef = s'.uiState.disableButtons →
      toggleEffectRun s' = { s' with hasCleanupT := false }) ∧
    (mountCounter c0).timers = [] ∧ (mountCounter c0).attempts = [] ∧
    (mountCounter c0).inflight = [] ∧
    (mountToggle d0).callsT = 0 ∧ (mountToggle d0).inflight = [] := by
  refine ⟨?_, ?_, ?_, ?_, ?_, ?_, ?_⟩
  · intro h
    simp [counterEffectRun, h]
  · intro h
    simp [toggleEffectRun, h]
  all_goals simp [mountCounter, mountToggle, counterEffectRun, toggleEffectRun]

/-- Witness for `initial_mount_skip` at concrete mounted states. -/
theorem initial_mount_skip_witness :
    counterEffectRun 0 (mountCounter 3) = { mountCounter 3 with hasCleanup := false } ∧
    toggleEffectRun (mountToggle true) = { mountToggle true with hasCleanupT := false } ∧
    (mountCounter 5).timers = [] :=
  ⟨(initial_mount_skip 0 5 true (mountCounter 3) (mountToggle true)).1 (by decide),
    (initial_mount_skip 0 5 true (mountCounter 3) (mountToggle true)).2.1 (by decide),
    (initial_mount_skip 0 5 true (mountCounter 3) (mountToggle true)).2.2.1⟩

/-- Claim C8 (confirmed): when a count-path attempt fails (resolves
`false` or rejects), the handlers leave the counter value, the
`disableButtons` flag, the timer table and the attempt log unchanged;
the only state mutation is clearing `isSaving` (while mounted). -/
theorem counter_failure_frame (o : Except Unit Bool) (c : Nat) (s : CounterState)
    (ho : o = .ok false ∨ o = .error ()) :
    (counterHandlers o c s).count = s.count ∧
    (counterHandlers o c s).disableButtons = s.disableButtons ∧
    (counterHandlers o c s).timers = s.timers ∧
    (counterHandlers o c s).attempts = s.attempts ∧
    (s.mountedC = true → (counterHandlers o c s).isSaving = false) ∧
    (counterSettle o s).count = s.count ∧
    (counterSettle o s).disableButtons = s.disableButtons := by
  rcases ho with h | h <;> subst h <;>
    cases hin : s.inflight <;> cases hm : s.mountedC <;>
      simp [counterHandlers, counterSettle, setIsSavingC, hin, hm]

/-- Witness for `counter_failure_frame` at a concrete failing outcome. -/
theorem counter_failure_frame_witness :
    ((Except.ok false : Except Unit Bool) = .ok false ∨
      (Except.ok false : Except Unit Bool) = .error ()) ∧
    (counterHandlers (.ok false) 7 (mountCounter 2)).count = (mountCounter 2).count ∧
    (counterHandlers (.ok false) 7 (mountCounter 2)).disableButtons =
      (mountCounter 2).disableButtons ∧
    (counterHandlers (.ok false) 7 (mountCounter 2)).isSaving = false := by
  have h := counter_failure_frame (.ok false) 7 (mountCounter 2) (Or.inl rfl)
  exact ⟨Or.inl rfl, h.1, h.2.1, h.2.2.2.2.1 (by decide)⟩
theorem fireDue_not_due (t : Nat) (s : CounterState)
    (h : ∀ tr ∈ s.timers, t < tr.fireAt) : fireDue t s = s := by
  have he : earliestDue s.timers t = none := by
    unfold earliestDue
    have : s.timers.filter (fun tr => tr.fireAt ≤ t) = [] := by
      refine List.filter_eq_nil_iff.mpr ?_
      intro tr htr
      simpa using Nat.not_le.mpr (h tr htr)
    rw [this]
    rfl
  unfold fireDue
  cases hn : s.timers.length with
  | zero => rfl
  | succ n => simp [fireDueAux, he]

theorem fireDue_singleton (t : Nat) (s : CounterState) (tr : TimerRec)
    (hl : s.timers = [tr]) (hd : tr.fireAt ≤ t) : fireDue t s = fireTimer tr s := by
  have he : earliestDue s.timers t = some tr := by
    unfold earliestDue
    rw [hl]
    simp [List.filter, hd]
  unfold fireDue
  rw [hl]
  simp only [List.length_cons, List.length_nil]
  simp [fireDueAux, he]

/-- `chain_step`: one in-window counter change preserves the debounce
invariant, cancelling any pending timer and (unless the value returned to
the recorded one) scheduling a fresh timer 300 units out. -/
theorem chain_step (c0 tPrev t n : Nat) (s : CounterState)
    (hinv : ChainInv c0 tPrev s) (ht : t < tPrev + 300) (hn : n ≠ s.count) :
    ChainInv c0 t (counterStep t (.change n) s) ∧ (counterStep t (.change n) s).count = n := by
  obtain ⟨m, cnt, pr, ref, tms, nid, hcl, sav, dis, infl, att, w, e⟩ := s
  obtain ⟨hm, hp, ha, hi, hs, hcase⟩ := hinv
  simp only at hm hp ha hi hs hn
  subst hm hp ha hi hs
  rcases hcase with ⟨hc, htim, href, hhc⟩ | ⟨hc, id, htim, href, hhc⟩
  · simp only at hc htim href hhc
    subst hc htim href hhc
    have h2 : ¬ (cnt = n) := fun hh => hn hh.symm
    refine ⟨?_, ?_⟩ <;>
      simp [counterStep, fireDue, fireDueAux, counterChange, counterEffectRun, ChainInv,
        hn, h2]
  · simp only at hc htim href hhc
    subst htim href hhc
    have hnd : ¬ (tPrev + 300 ≤ t) := by omega
    by_cases hnc : n = pr
    · subst hnc
      refine ⟨?_, ?_⟩ <;>
        simp [counterStep, fireDue, fireDueAux, earliestDue, counterChange, counterCleanup,
          counterEffectRun, ChainInv, hn, hnd, hc]
    · have h2 : ¬ (pr = n) := fun hh => hnc hh.symm
      refine ⟨?_, ?_⟩ <;>
        simp [counterStep, fireDue, fireDueAux, earliestDue, counterChange, counterCleanup,
          counterEffectRun, ChainInv, hn, hnd, hc, h2, hnc]

/-- `chain_run`: a rapid change chain preserves the debounce invariant. -/
theorem chain_run (c0 : Nat) (rest : List (Nat × Nat)) : ∀ (tPrev : Nat) (s : CounterState),
    ChainInv c0 tPrev s → okChain tPrev s.count rest →
    ChainInv c0 (lastT tPrev rest) (runCounter s (changesToInputs rest)) ∧
    (runCounter s (changesToInputs rest)).count = lastV s.count rest := by
  induction rest with
  | nil =>
      intro tPrev s hinv _
      exact ⟨hinv, rfl⟩
  | cons p rest ih =>
      obtain ⟨t, v⟩ := p
      intro tPrev s hinv hok
      obtain ⟨h1, h2, h3, hrest⟩ := hok
      have hstep := chain_step c0 tPrev t v s hinv h2 h3
      have hok' : okChain t (counterStep t (.change v) s).count rest := by
        rw [hstep.2]
        exact hrest
      have hrec := ih t _ hstep.1 hok'
      simpa [changesToInputs, runCounter, lastT, lastV, hstep.2] using hrec

/-- Claim C1 (corrected, amended): for every rapid chain of counter
changes (each strictly inside the previous change's 300-unit quiet
window, each actually changing the value), PROVIDED the final settled
value differs from the value recorded in `prevCountRef` (the pre-chain
value), exactly one notification attempt fires, for the final settled
value, 300 units after the last change.  (Without that proviso the claim
fails: see `counter_chain_back_to_start_zero_attempts`.) -/
theorem counter_debounce_settled (c0 t1 v1 : Nat) (rest : List (Nat × Nat))
    (h1 : v1 ≠ c0) (hchain : okChain t1 v1 rest) (hlast : lastV v1 rest ≠ c0) :
    (runCounterTo (mountCounter c0) (changesToInputs ((t1, v1) :: rest))
        (lastT t1 rest + 300)).attempts = [(lastT t1 rest + 300, lastV v1 rest)] := by
  have hmount : ChainInv c0 t1 (mountCounter c0) := by
    simp [ChainInv, mountCounter, counterEffectRun]
  have hn1 : v1 ≠ (mountCounter c0).count := by
    simpa [mountCounter, counterEffectRun] using h1
  have hstep1 := chain_step c0 t1 t1 v1 (mountCounter c0) hmount (by omega) hn1
  have hchain' : okChain t1 (counterStep t1 (.change v1) (mountCounter c0)).count rest := by
    rw [hstep1.2]
    exact hchain
  have hrun := chain_run c0 rest t1 _ hstep1.1 hchain'
  obtain ⟨hinvN, hcN⟩ := hrun
  rw [hstep1.2] at hcN
  obtain ⟨hm, hp, ha, hi, hs, hcase⟩ := hinvN
  rcases hcase with ⟨hc, _, _, _⟩ | ⟨hc, id, htim, href, hhc⟩
  · rw [hcN] at hc
    exact absurd hc hlast
  · have hfd := fireDue_singleton (lastT t1 rest + 300) _
      ⟨id, lastT t1 rest + 300,
        (runCounter (counterStep t1 (.change v1) (mountCounter c0)) (changesToInputs rest)).count⟩
      htim (Nat.le_refl _)
    have hdef : runCounterTo (mountCounter c0) (changesToInputs ((t1, v1) :: rest))
        (lastT t1 rest + 300) =
        fireDue (lastT t1 rest + 300)
          (runCounter (counterStep t1 (.change v1) (mountCounter c0)) (changesToInputs rest)) := rfl
    rw [hdef, hfd]
    simp [fireTimer, setIsSavingC, hm, ha, hcN]

theorem setIsSavingC_timers (b : Bool) (s : CounterState) :
    (setIsSavingC b s).timers = s.timers := by
  unfold setIsSavingC
  split <;> rfl

theorem setIsSavingC_countTimeoutRef (b : Bool) (s : CounterState) :
    (setIsSavingC b s).countTimeoutRef = s.countTimeoutRef := by
  unfold setIsSavingC
  split <;> rfl

theorem setIsSavingC_hasCleanup (b : Bool) (s : CounterState) :
    (setIsSavingC b s).hasCleanup = s.hasCleanup := by
  unfold setIsSavingC
  split <;> rfl

theorem cleanup_timers_nil (s : CounterState)
    (h : ∀ tr ∈ s.timers, s.countTimeoutRef = some tr.id) : (counterCleanup s).timers = [] := by
  unfold counterCleanup
  split
  next id heq =>
    simp only
    refine List.filter_eq_nil_iff.mpr ?_
    intro tr htr
    have h2 := h tr htr
    rw [heq] at h2
    have h3 : id = tr.id := by injection h2
    simp [h3]
  next heq =>
    cases ht : s.timers with
    | nil => rfl
    | cons a l =>
        exfalso
        have h2 := h a (by rw [ht]; exact List.mem_cons_self a l)
        rw [heq] at h2
        exact Option.noConfusion h2

theorem timerInv_effectRun (t : Nat) (s : CounterState) (h0 : s.timers = []) :
    TimerInv (counterEffectRun t s) := by
  unfold TimerInv counterEffectRun
  by_cases hpe : s.prevCountRef = s.count
  · rw [if_pos hpe]
    simp [h0]
  · rw [if_neg hpe]
    cases href : s.countTimeoutRef <;> simp [h0, href]

theorem timerInv_fireTimer (tr : TimerRec) (s : CounterState) (h : TimerInv s) :
    TimerInv (fireTimer tr s) := by
  have hti : (fireTimer tr s).timers = s.timers.filter (fun x => x.id ≠ tr.id) := by
    unfold fireTimer
    rw [setIsSavingC_timers]
  have hre : (fireTimer tr s).countTimeoutRef = s.countTimeoutRef := by
    unfold fireTimer
    rw [setIsSavingC_countTimeoutRef]
  have hhc : (fireTimer tr s).hasCleanup = s.hasCleanup := by
    unfold fireTimer
    rw [setIsSavingC_hasCleanup]
  constructor
  · rw [hti]
    exact le_trans (List.length_filter_le _ _) h.1
  · intro tr2 htr2
    rw [hti] at htr2
    have hmem := List.mem_of_mem_filter htr2
    rw [hre, hhc]
    exact h.2 tr2 hmem

theorem timerInv_fireDueAux (t : Nat) :
    ∀ (fuel : Nat) (s : CounterState), TimerInv s → TimerInv (fireDueAux t fuel s) := by
  intro fuel
  induction fuel with
  | zero => intro s h; exact h
  | succ n ih =>
      intro s h
      unfold fireDueAux
      cases he : earliestDue s.timers t with
      | none => exact h
      | some tr => exact ih _ (timerInv_fireTimer tr s h)

theorem timerInv_fireDue (t : Nat) (s : CounterState) (h : TimerInv s) :
    TimerInv (fireDue t s) :=
  timerInv_fireDueAux t s.timers.length s h

theorem timerInv_change (t n : Nat) (s : CounterState) (h : TimerInv s) :
    TimerInv (counterChange t n s) := by
  unfold counterChange
  by_cases hm : s.mountedC = false
  · rw [if_pos hm]
    exact h
  · rw [if_neg hm]
    by_cases hn : n = s.count
    · rw [if_pos hn]
      exact h
    · rw [if_neg hn]
      have h0 : (if s.hasCleanup then counterCleanup s else s).timers = [] := by
        by_cases hhc : s.hasCleanup
        · rw [if_pos hhc]
          exact cleanup_timers_nil s (fun tr htr => (h.2 tr htr).1)
        · rw [if_neg hhc]
          cases ht : s.timers with
          | nil => rfl
          | cons a l =>
              exact absurd ((h.2 a (by rw [ht]; exact List.mem_cons_self a l)).2) hhc
      apply timerInv_effectRun
      simpa using h0

theorem counterHandlers_frame (o : Except Unit Bool) (c : Nat) (s : CounterState) :
    (counterHandlers o c s).timers = s.timers ∧
    (counterHandlers o c s).countTimeoutRef = s.countTimeoutRef ∧
    (counterHandlers o c s).hasCleanup = s.hasCleanup := by
  unfold counterHandlers setIsSavingC
  rcases o with e | b
  · dsimp only
    split_ifs <;> exact ⟨rfl, rfl, rfl⟩
  · cases b <;> dsimp only <;> split_ifs <;> exact ⟨rfl, rfl, rfl⟩

theorem counterSettle_frame (o : Except Unit Bool) (s : CounterState) :
    (counterSettle o s).timers = s.timers ∧
    (counterSettle o s).countTimeoutRef = s.countTimeoutRef ∧
    (counterSettle o s).hasCleanup = s.hasCleanup := by
  unfold counterSettle
  rcases hin : s.inflight with _ | ⟨c, rest⟩
  · exact ⟨rfl, rfl, rfl⟩
  · exact counterHandlers_frame o c { s with inflight := rest }

theorem timerInv_settle (o : Except Unit Bool) (s : CounterState) (h : TimerInv s) :
    TimerInv (counterSettle o s) := by
  obtain ⟨h1, h2, h3⟩ := counterSettle_frame o s
  constructor
  · rw [h1]
    exact h.1
  · intro tr htr
    rw [h1] at htr
    rw [h2, h3]
    exact h.2 tr htr

theorem timerInv_unmount (s : CounterState) (h : TimerInv s) :
    TimerInv (counterUnmount s) := by
  unfold counterUnmount
  by_cases hm : s.mountedC = false
  · rw [if_pos hm]
    exact h
  · rw [if_neg hm]
    have h0 : (if s.hasCleanup then counterCleanup s else s).timers = [] := by
      by_cases hhc : s.hasCleanup
      · rw [if_pos hhc]
        exact cleanup_timers_nil s (fun tr htr => (h.2 tr htr).1)
      · rw [if_neg hhc]
        cases ht : s.timers with
        | nil => rfl
        | cons a l =>
            exact absurd ((h.2 a (by rw [ht]; exact List.mem_cons_self a l)).2) hhc
    constructor
    · show (if s.hasCleanup then counterCleanup s else s).timers.length ≤ 1
      rw [h0]
      exact Nat.zero_le 1
    · intro tr htr
      have : tr ∈ (if s.hasCleanup then counterCleanup s else s).timers := htr
      rw [h0] at this
      exact absurd this (List.not_mem_nil tr)

theorem timerInv_step (t : Nat) (i : CInput) (s : CounterState) (h : TimerInv s) :
    TimerInv (counterStep t i s) := by
  unfold counterStep
  have hf := timerInv_fireDue t s h
  cases i with
  | change n => exact timerInv_change t n _ hf
  | settle o => exact timerInv_settle o _ hf
  | unmount => exact timerInv_unmount _ hf

theorem timerInv_mount (c0 : Nat) : TimerInv (mountCounter c0) := by
  unfold TimerInv
  simp [mountCounter, counterEffectRun]

theorem timerInv_run (c0 : Nat) (evs : List (Nat × CInput)) :
    TimerInv (runCounter (mountCounter c0) evs) := by
  suffices hgen : ∀ (l : List (Nat × CInput)) (s : CounterState),
      TimerInv s → TimerInv (runCounter s l) by
    exact hgen evs (mountCounter c0) (timerInv_mount c0)
  intro l
  induction l with
  | nil => intro s h; exact h
  | cons p rest ih =>
      intro s h
      exact ih _ (timerInv_step p.1 p.2 s h)

theorem effectRun_schedules (t : Nat) (s : CounterState) (h0 : s.timers = [])
    (hne : s.prevCountRef ≠ s.count) :
    (counterEffectRun t s).timers = [⟨s.nextId, t + 300, s.count⟩] := by
  unfold counterEffectRun
  rw [if_neg hne]
  cases href : s.countTimeoutRef <;> simp [h0, href]

theorem counterChange_schedules (t n : Nat) (s : CounterState) (h : TimerInv s)
    (hm : s.mountedC = true) (hn : n ≠ s.count) (hp : n ≠ s.prevCountRef) :
    ∃ id, (counterChange t n s).timers = [⟨id, t + 300, n⟩] := by
  unfold counterChange
  have hm2 : ¬ (s.mountedC = false) := by simp [hm]
  rw [if_neg hm2, if_neg hn]
  have h0 : (if s.hasCleanup then counterCleanup s else s).timers = [] := by
    by_cases hhc : s.hasCleanup
    · rw [if_pos hhc]
      exact cleanup_timers_nil s (fun tr htr => (h.2 tr htr).1)
    · rw [if_neg hhc]
      cases ht : s.timers with
      | nil => rfl
      | cons a l =>
          exact absurd ((h.2 a (by rw [ht]; exact List.mem_cons_self a l)).2) hhc
  refine ⟨(if s.hasCleanup then counterCleanup s else s).nextId, ?_⟩
  have hpr : ({ (if s.hasCleanup then counterCleanup s else s) with count := n }).prevCountRef
      = s.prevCountRef := by
    by_cases hhc : s.hasCleanup
    · simp only [if_pos hhc]
      unfold counterCleanup
      split <;> rfl
    · simp only [if_neg hhc]
  have := effectRun_schedules t { (if s.hasCleanup then counterCleanup s else s) with count := n }
    (by simpa using h0) (by rw [hpr]; exact fun hh => hp hh.symm)
  simpa using this

theorem setIsSavingC_attempts (b : Bool) (s : CounterState) :
    (setIsSavingC b s).attempts = s.attempts := by
  unfold setIsSavingC
  split <;> rfl

theorem counter_superseded_no_attempt (c0 t t' v v' tEnd : Nat)
    (hv0 : v ≠ c0) (hvv : v' ≠ v) (htt : t ≤ t') (ht' : t' < t + 300) :
    ∀ p ∈ (runCounterTo (mountCounter c0) (changesToInputs [(t, v), (t', v')]) tEnd).attempts,
      p.2 ≠ v := by
  have hmount : ChainInv c0 t (mountCounter c0) := by
    simp [ChainInv, mountCounter, counterEffectRun]
  have hn1 : v ≠ (mountCounter c0).count := by
    simpa [mountCounter, counterEffectRun] using hv0
  have hstep1 := chain_step c0 t t v (mountCounter c0) hmount (by omega) hn1
  have hn2 : v' ≠ (counterStep t (.change v) (mountCounter c0)).count := by
    rw [hstep1.2]
    exact hvv
  have hstep2 := chain_step c0 t t' v' _ hstep1.1 ht' hn2
  obtain ⟨hinv2, hc2⟩ := hstep2
  set s2 := counterStep t' (CInput.change v') (counterStep t (CInput.change v) (mountCounter c0))
    with hs2
  obtain ⟨hm, hp, ha, hi, hs, hcase⟩ := hinv2
  have hdef : runCounterTo (mountCounter c0) (changesToInputs [(t, v), (t', v')]) tEnd =
      fireDue tEnd s2 := rfl
  rw [hdef]
  rcases hcase with ⟨hc, htim, _, _⟩ | ⟨hc, id, htim, href, hhc⟩
  · rw [fireDue_not_due tEnd _ (by rw [htim]; intro tr htr; exact absurd htr (List.not_mem_nil tr))]
    rw [ha]
    intro p hq
    exact absurd hq (List.not_mem_nil p)
  · by_cases hdue : t' + 300 ≤ tEnd
    · rw [fireDue_singleton tEnd s2 ⟨id, t' + 300, s2.count⟩ htim hdue]
      intro p hq
      have hattr : (fireTimer ⟨id, t' + 300, s2.count⟩ s2).attempts
          = s2.attempts ++ [(t' + 300, s2.count)] := by
        unfold fireTimer
        rw [setIsSavingC_attempts]
      rw [hattr, ha] at hq
      have hp2 : p = (t' + 300, s2.count) := List.mem_singleton.mp (by simpa using hq)
      rw [hp2]
      show s2.count ≠ v
      rw [hc2]
      exact hvv
    · rw [fireDue_not_due tEnd _ ?h2]
      · rw [ha]
        intro p hq
        exact absurd hq (List.not_mem_nil p)
      · rw [htim]
        intro tr htr
        rcases List.mem_singleton.mp htr with rfl
        simp only
        omega

/-- Witness for `counter_debounce_settled`: changes 0→1, 1→2, 2→3 at
times 0, 100, 200 produce exactly one attempt, for value 3, at time 500. -/
theorem counter_debounce_settled_witness :
    (1 : Nat) ≠ 0 ∧ okChain 0 1 [(100, 2), (200, 3)] ∧ lastV 1 [(100, 2), (200, 3)] ≠ 0 ∧
    (runCounterTo (mountCounter 0) (changesToInputs [(0, 1), (100, 2), (200, 3)]) 500).attempts
      = [(500, 3)] := by
  have hok : okChain 0 1 [(100, 2), (200, 3)] :=
    ⟨by omega, by omega, by omega, by omega, by omega, by omega, trivial⟩
  refine ⟨by omega, hok, by decide, ?_⟩
  exact counter_debounce_settled 0 0 1 [(100, 2), (200, 3)] (by omega) hok (by decide)

/-- Claim C6 (confirmed): (1) in every execution at most one scheduled
notification timer is outstanding for the counter; (2) a counter change
(mounted, value actually changing, different from the recorded value)
cancels any existing timer and replaces it with exactly the new one, due
300 units later and capturing the new value; (3) a value superseded
inside its quiet window receives zero notification attempts. -/
theorem counter_pending_timer_invariant :
    (∀ (c0 : Nat) (evs : List (Nat × CInput)),
      (runCounter (mountCounter c0) evs).timers.length ≤ 1) ∧
    (∀ (t n : Nat) (s : CounterState), TimerInv s → s.mountedC = true → n ≠ s.count →
      n ≠ s.prevCountRef → ∃ id, (counterChange t n s).timers = [⟨id, t + 300, n⟩]) ∧
    (∀ (c0 t t' v v' tEnd : Nat), v ≠ c0 → v' ≠ v → t ≤ t' → t' < t + 300 →
      ∀ p ∈ (runCounterTo (mountCounter c0) (changesToInputs [(t, v), (t', v')]) tEnd).attempts,
        p.2 ≠ v) :=
  ⟨fun c0 evs => (timerInv_run c0 evs).1, counterChange_schedules, counter_superseded_no_attempt⟩

/-- Witness for `counter_pending_timer_invariant` at concrete inputs. -/
theorem counter_pending_timer_invariant_witness :
    (runCounter (mountCounter 0) [(0, .change 1), (200, .change 2)]).timers.length ≤ 1 ∧
    TimerInv (mountCounter 0) ∧
    (∃ id, (counterChange 50 2 (mountCounter 0)).timers = [⟨id, 350, 2⟩]) ∧
    (∀ p ∈ (runCounterTo (mountCounter 0) (changesToInputs [(0, 1), (100, 2)]) 500).attempts,
      p.2 ≠ 1) :=
  ⟨counter_pending_timer_invariant.1 0 _, by decide,
    counter_pending_timer_invariant.2.1 50 2 (mountCounter 0) (by decide) (by decide)
      (by decide) (by decide),
    counter_pending_timer_invariant.2.2 0 0 100 1 2 500 (by decide) (by decide)
      (by decide) (by decide)⟩
